import Mathlib

/-!
Shallow embedding of the placement solver of jump-space-power-grid-optimizer.

Source files embedded:
* src/js/components.js — shape engine: rotateShape, getAllRotations, getOccupiedCells.
* src/js/solver.js — two revisions are present in the source tree, separated by a
  document marker: the first (strict / skip-allowed / greedy escalation, lines 1-407)
  is embedded as `solve` and its helpers; the second (mandatory-piece revision,
  lines 408-727) is embedded as `solveMandatory` and its helpers.

Modelling conventions:
* JS numbers holding cell states and coordinates are modelled as `Nat`
  (the solver only ever produces non-negative coordinates: placement origins come
  from loops starting at 0, so the JS check `cell.row < 0` is vacuous here).
* The JS `Set` of string keys "row,col" is modelled as a `List (Nat × Nat)`
  with insertion skipping duplicates; the key encoding is injective on pairs of
  naturals, and the set is only ever consulted through membership.
* Out-of-range JS indexing (`undefined`) is modelled by `List.getD` with default 0
  (= unpowered): the solver only indexes the grid after its own bounds checks, and
  `countProtectedCells` uses optional chaining so an out-of-range read compares
  `undefined === 2`, i.e. false — the same as the default 0.
* `Array.prototype.sort` is stable (ECMAScript 2019); a stable sort by a comparator
  is the unique permutation sorted by the key that keeps equal keys in original
  relative order, which is how `sortCands` is written (see its doc comment).
* A JS falsy `piece.componentName` (absent or empty string) is modelled as `""`.
-/

/-- Grid cell state read, JS `gridState[r][c]` (0 = unpowered, 1 = powered, 2 = protected). -/
def gridVal (gridState : List (List Nat)) (r c : Nat) : Nat :=
  (gridState.getD r []).getD c 0

/-- components.js `rotateShape`: rotate a shape 90 degrees clockwise.
For each output column index `col` of the input, the new row collects
`shape[rows-1][col], …, shape[0][col]`. -/
def rotateShape (shape : List (List Nat)) : List (List Nat) :=
  (List.range (shape.headD []).length).map (fun col =>
    (List.range shape.length).map (fun k =>
      (shape.getD (shape.length - 1 - k) []).getD col 0))

/-- components.js `getAllRotations`: the shape followed by its three successive rotations. -/
def getAllRotations (shape : List (List Nat)) : List (List (List Nat)) :=
  [shape, rotateShape shape, rotateShape (rotateShape shape),
    rotateShape (rotateShape (rotateShape shape))]

/-- components.js `getOccupiedCells`: absolute coordinates of the filled mask cells,
in row-major order. -/
def getOccupiedCells (shape : List (List Nat)) (startRow startCol : Nat) :
    List (Nat × Nat) :=
  (shape.enum.map (fun rr =>
    rr.2.enum.filterMap (fun cv =>
      if cv.2 = 1 then some (startRow + rr.1, startCol + cv.1) else none))).flatten

/-- solver.js `isPowered`: value 1 or 2. -/
def isPowered (value : Nat) : Bool :=
  value == 1 || value == 2

/-- solver.js `canPlace`: every occupied cell in bounds, powered, and unoccupied. -/
def canPlace (shape : List (List Nat)) (startRow startCol : Nat)
    (gridState : List (List Nat)) (occupiedCells : List (Nat × Nat))
    (gridSize : Nat) : Bool :=
  (getOccupiedCells shape startRow startCol).all (fun cell =>
    decide (cell.1 < gridSize) && decide (cell.2 < gridSize) &&
      isPowered (gridVal gridState cell.1 cell.2) && !(occupiedCells.contains cell))

/-- solver.js `countProtectedCells`: occupied cells whose grid state is 2. -/
def countProtectedCells (shape : List (List Nat)) (startRow startCol : Nat)
    (gridState : List (List Nat)) : Nat :=
  ((getOccupiedCells shape startRow startCol).filter (fun cell =>
    gridVal gridState cell.1 cell.2 == 2)).length

/-- solver.js `placePiece` on the occupancy set (JS `Set.add` for each key). -/
def addCells (cells : List (Nat × Nat)) (occ : List (Nat × Nat)) : List (Nat × Nat) :=
  cells.foldl (fun o k => if o.contains k then o else o ++ [k]) occ

/-- One placeable unit handed to the solver.  The solver code reads `id`,
`priorityId`, `name`, `componentName`, `shape` and (second revision) `mandatory`.
`protectPreferred` is caller-side data that the solver never reads; it is carried
here so that spec claims about it can be stated. -/
structure Piece where
  id : Nat
  priorityId : Nat
  name : String
  componentName : String
  shape : List (List Nat)
  mandatory : Bool
  protectPreferred : Bool
deriving DecidableEq, Repr

/-- A candidate placement collected by `getValidPlacements`. -/
structure Cand where
  shape : List (List Nat)
  row : Nat
  col : Nat
  rotIdx : Nat
  protectedCount : Nat
deriving DecidableEq, Repr

/-- A committed placement as built by the solver. -/
structure Placement where
  pieceId : Nat
  priorityId : Nat
  pieceName : String
  componentName : String
  shape : List (List Nat)
  row : Nat
  col : Nat
  rotation : Nat
  cells : List (Nat × Nat)
  placedKeys : List (Nat × Nat)
deriving DecidableEq, Repr

/-- The JS loop `for (let row = 0; row <= gridSize - rows; row++)` over signed
numbers: empty when the shape dimension exceeds the grid. -/
def originRange (gridSize len : Nat) : List Nat :=
  if len ≤ gridSize then List.range (gridSize - len + 1) else []

/-- The nested enumeration loop of solver.js `getValidPlacements`:
rotation index ascending, then origin row, then origin column. -/
def enumCands (piece : Piece) (gridState : List (List Nat))
    (occ : List (Nat × Nat)) (gridSize : Nat) : List Cand :=
  ((getAllRotations piece.shape).enum.map (fun rs =>
    ((originRange gridSize rs.2.length).map (fun row =>
      (originRange gridSize (rs.2.headD []).length).filterMap (fun col =>
        if canPlace rs.2 row col gridState occ gridSize then
          some { shape := rs.2, row := row, col := col, rotIdx := rs.1,
                 protectedCount := countProtectedCells rs.2 row col gridState }
        else none))).flatten)).flatten

/-- Stable insertion of a candidate into a count-descending list: the new element
goes in front of the first element whose count does not exceed it, so among equal
counts the earlier-inserted (later-enumerated) elements stay behind. -/
def insertDesc (a : Cand) : List Cand → List Cand
  | [] => [a]
  | h :: t =>
      if h.protectedCount ≤ a.protectedCount then a :: h :: t
      else h :: insertDesc a t

/-- The JS sort `placements.sort((a, b) => b.protectedCount - a.protectedCount)`.
`Array.prototype.sort` is stable (ECMAScript 2019), and a stable sort is the
unique permutation that is ordered by the key and keeps equal-key elements in
their original relative order; this insertion sort from the right has exactly
those properties (proved below), hence equals the JS sort. -/
def sortCands : List Cand → List Cand
  | [] => []
  | x :: t => insertDesc x (sortCands t)

/-- solver.js `getValidPlacements`. -/
def getValidPlacements (piece : Piece) (gridState : List (List Nat))
    (occ : List (Nat × Nat)) (gridSize : Nat) : List Cand :=
  sortCands (enumCands piece gridState occ gridSize)

/-- The placement record pushed by the solver for piece `p` and candidate `cand`. -/
def mkPlacement (p : Piece) (cand : Cand) : Placement :=
  { pieceId := p.id
    priorityId := p.priorityId
    pieceName := p.name
    componentName := if p.componentName = "" then p.name else p.componentName
    shape := cand.shape
    row := cand.row
    col := cand.col
    rotation := cand.rotIdx * 90
    cells := getOccupiedCells cand.shape cand.row cand.col
    placedKeys := getOccupiedCells cand.shape cand.row cand.col }

/-- solver.js `tryPlacePiece`: take the best candidate, commit it, or fail. -/
def tryPlacePiece (piece : Piece) (gridState : List (List Nat))
    (occ : List (Nat × Nat)) (gridSize : Nat) :
    Option (Placement × List (Nat × Nat)) :=
  match getValidPlacements piece gridState occ gridSize with
  | [] => none
  | best :: _ =>
      some (mkPlacement piece best,
        addCells (getOccupiedCells best.shape best.row best.col) occ)

/-- The greedy loops of solver.js: place each piece in order with `tryPlacePiece`,
threading the occupancy set, skipping pieces with no candidate. -/
def greedyLoop (gridState : List (List Nat)) (gridSize : Nat) :
    List Piece → List (Nat × Nat) → List Placement × List (Nat × Nat)
  | [], occ => ([], occ)
  | p :: rest, occ =>
      match tryPlacePiece p gridState occ gridSize with
      | none => greedyLoop gridState gridSize rest occ
      | some (pl, occ2) =>
          let r := greedyLoop gridState gridSize rest occ2
          (pl :: r.1, r.2)

/-- solver.js `MAX_BACKTRACK_ITERATIONS`. -/
def MAXIT : Nat := 50000

/-- Result of one bounded backtracking run: the optional (placements, occupancy)
pair, the final iteration count, and the `exceeded` flag. -/
abbrev BTRes : Type := Option (List Placement × List (Nat × Nat)) × Nat × Bool

/-- The candidate loop shared by `backtrackStrict` (first 20 candidates) and
`backtrackAllowSkip` (first 15): `recurse` is the recursive call on the remaining
pieces, `onExhausted` what the loop falls through to (failure for strict mode,
skipping the piece for skip mode).  The loop-top budget check of the source is
kept: the running counter may have been advanced by the recursive calls. -/
def candLoop
    (recurse : List (Nat × Nat) → List Placement → Nat → Bool → BTRes)
    (onExhausted : List (Nat × Nat) → List Placement → Nat → Bool → BTRes)
    (p : Piece) :
    List Cand → List (Nat × Nat) → List Placement → Nat → Bool → BTRes
  | [], occ, placements, cnt, exc => onExhausted occ placements cnt exc
  | cand :: more, occ, placements, cnt, exc =>
      if MAXIT < cnt then (none, cnt, true)
      else
        match recurse (addCells (getOccupiedCells cand.shape cand.row cand.col) occ)
            (placements ++ [mkPlacement p cand]) cnt exc with
        | (some sol, cnt2, exc2) => (some sol, cnt2, exc2)
        | (none, cnt2, exc2) =>
            candLoop recurse onExhausted p more occ placements cnt2 exc2

/-- solver.js `backtrackStrict` (no skipping): the remaining-piece list stands for
`pieces[pieceIndex..]`; the mutable iteration counter and `exceeded` flag are
threaded explicitly.  On success the final occupancy set is returned with the
placements (the JS set holds exactly the cells added along the successful branch). -/
def btStrict (gridState : List (List Nat)) (gridSize : Nat) :
    List Piece → List (Nat × Nat) → List Placement → Nat → Bool → BTRes
  | [], occ, placements, cnt, exc =>
      if MAXIT < cnt + 1 then (none, cnt + 1, true)
      else (some (placements, occ), cnt + 1, exc)
  | p :: rest, occ, placements, cnt, exc =>
      if MAXIT < cnt + 1 then (none, cnt + 1, true)
      else
        candLoop
          (fun occ2 pl2 c2 e2 => btStrict gridState gridSize rest occ2 pl2 c2 e2)
          (fun _ _ c2 e2 => (none, c2, e2)) p
          ((getValidPlacements p gridState occ gridSize).take 20)
          occ placements (cnt + 1) exc

/-- solver.js `backtrackAllowSkip`: same structure as `btStrict`, but a piece whose
candidates are exhausted is skipped (the trailing recursive call of the source). -/
def btSkip (gridState : List (List Nat)) (gridSize : Nat) :
    List Piece → List (Nat × Nat) → List Placement → Nat → Bool → BTRes
  | [], occ, placements, cnt, exc =>
      if MAXIT < cnt + 1 then (none, cnt + 1, true)
      else (some (placements, occ), cnt + 1, exc)
  | p :: rest, occ, placements, cnt, exc =>
      if MAXIT < cnt + 1 then (none, cnt + 1, true)
      else
        candLoop
          (fun occ2 pl2 c2 e2 => btSkip gridState gridSize rest occ2 pl2 c2 e2)
          (fun occ2 pl2 c2 e2 => btSkip gridState gridSize rest occ2 pl2 c2 e2) p
          ((getValidPlacements p gridState occ gridSize).take 15)
          occ placements (cnt + 1) exc

/-- The candidate loop of the second revision's `backtrackMandatory`:
full candidate list, no iteration counter. -/
def mandLoop
    (recurse : List (Nat × Nat) → List Placement →
      Option (List Placement × List (Nat × Nat)))
    (p : Piece) :
    List Cand → List (Nat × Nat) → List Placement →
      Option (List Placement × List (Nat × Nat))
  | [], _, _ => none
  | cand :: more, occ, placements =>
      match recurse (addCells (getOccupiedCells cand.shape cand.row cand.col) occ)
          (placements ++ [mkPlacement p cand]) with
      | some sol => some sol
      | none => mandLoop recurse p more occ placements

/-- Second solver.js revision, `backtrackMandatory`: unbounded backtracking over
the full candidate list, no iteration counter. -/
def backtrackMandatory (gridState : List (List Nat)) (gridSize : Nat) :
    List Piece → List (Nat × Nat) → List Placement →
      Option (List Placement × List (Nat × Nat))
  | [], occ, placements => some (placements, occ)
  | p :: rest, occ, placements =>
      mandLoop
        (fun occ2 pl2 => backtrackMandatory gridState gridSize rest occ2 pl2) p
        (getValidPlacements p gridState occ gridSize) occ placements

/-- The powered-cell count of `solve` (states 1 and 2 both count). -/
def countPoweredCells (gridState : List (List Nat)) (gridSize : Nat) : Nat :=
  ((List.range gridSize).map (fun r =>
    ((List.range gridSize).filter (fun c =>
      isPowered (gridVal gridState r c))).length)).sum

/-- The protected-cell count of `solve` (state 2). -/
def countProtectedGridCells (gridState : List (List Nat)) (gridSize : Nat) : Nat :=
  ((List.range gridSize).map (fun r =>
    ((List.range gridSize).filter (fun c =>
      gridVal gridState r c == 2)).length)).sum

/-- Coverage statistics of the first solver revision. -/
structure Stats where
  placed : Nat
  total : Nat
  coveredCells : Nat
  poweredCount : Nat
  coveredProtected : Nat
  protectedCount : Nat
deriving DecidableEq, Repr

/-- Result object of the first solver revision; the early validation returns
carry no stats. -/
structure SolveResult where
  success : Bool
  solution : List Placement
  message : String
  stats : Option Stats
deriving DecidableEq, Repr

/-- Cells covered by a solution, as counted by the stats loop of `solve`. -/
def coveredCellsOf (solution : List Placement) : Nat :=
  (solution.map (fun pl => pl.cells.length)).sum

/-- Covered protected cells of a solution, as counted by the stats loop of `solve`. -/
def coveredProtectedOf (solution : List Placement) (gridState : List (List Nat)) : Nat :=
  (solution.map (fun pl =>
    (pl.cells.filter (fun cell => gridVal gridState cell.1 cell.2 == 2)).length)).sum

/-- First revision of solver.js `solve` (lines 1-407): validation, then
strict backtracking, then skip-allowed backtracking, then greedy fallback;
greedy directly when more than `MAX_PIECES_FOR_BACKTRACK = 8` pieces. -/
def solve (selectedPieces : List Piece) (gridState : List (List Nat))
    (gridSize : Nat) : SolveResult :=
  if selectedPieces.length = 0 then
    { success := false, solution := [], message := "No components selected",
      stats := none }
  else
    let poweredCount := countPoweredCells gridState gridSize
    let protectedCount := countProtectedGridCells gridState gridSize
    if poweredCount = 0 then
      { success := false, solution := [], message := "No powered cells on the grid",
        stats := none }
    else
      let totalPieces := selectedPieces.length
      let solWarn : List Placement × String :=
        if totalPieces ≤ 8 then
          match btStrict gridState gridSize selectedPieces [] [] 0 false with
          | (some full, _, _) => (full.1, "")
          | (none, _, _) =>
              match btSkip gridState gridSize selectedPieces [] [] 0 false with
              | (some part, _, exc) =>
                  (part.1, if exc then " (search limit reached)" else "")
              | (none, _, exc) =>
                  ((greedyLoop gridState gridSize selectedPieces []).1,
                    if exc then " (search limit reached)" else "")
        else
          ((greedyLoop gridState gridSize selectedPieces []).1,
            " (greedy mode - " ++ toString totalPieces ++
              " pieces exceeds backtrack limit of 8)")
      let solution := solWarn.1
      let coveredCells := coveredCellsOf solution
      let coveredProtected := coveredProtectedOf solution gridState
      let componentsPlaced := solution.length
      let message :=
        "Placed " ++ toString componentsPlaced ++ "/" ++ toString totalPieces ++
          " components" ++ ", covering " ++ toString coveredCells ++ "/" ++
          toString poweredCount ++ " cells" ++
          (if 0 < protectedCount then
            " (" ++ toString coveredProtected ++ "/" ++ toString protectedCount ++
              " protected)"
          else "") ++ solWarn.2
      let st : Stats :=
        { placed := componentsPlaced
          total := totalPieces
          coveredCells := coveredCells
          poweredCount := poweredCount
          coveredProtected := coveredProtected
          protectedCount := protectedCount }
      { success := decide (0 < componentsPlaced)
        solution := solution
        message := message
        stats := some st }

/-- Coverage statistics of the second (mandatory) solver revision. -/
structure StatsM where
  placed : Nat
  total : Nat
  mandatoryPlaced : Nat
  totalMandatory : Nat
  coveredCells : Nat
  poweredCount : Nat
  coveredProtected : Nat
  protectedCount : Nat
deriving DecidableEq, Repr

/-- Result object of the second (mandatory) solver revision. -/
structure MSolveResult where
  success : Bool
  solution : List Placement
  message : String
  stats : Option StatsM
deriving DecidableEq, Repr

/-- Second revision of solver.js `solve` (lines 408-727): validation, then
backtracking over the mandatory pieces (greedy fallback on failure), then greedy
placement of the optional pieces on the remaining occupancy.  The JS local
`mandatoryFailed` is set but never read afterwards and is dropped here. -/
def solveMandatory (selectedPieces : List Piece) (gridState : List (List Nat))
    (gridSize : Nat) : MSolveResult :=
  if selectedPieces.length = 0 then
    { success := false, solution := [], message := "No components selected",
      stats := none }
  else
    let poweredCount := countPoweredCells gridState gridSize
    let protectedCount := countProtectedGridCells gridState gridSize
    if poweredCount = 0 then
      { success := false, solution := [], message := "No powered cells on the grid",
        stats := none }
    else
      let mandatoryPieces := selectedPieces.filter (fun p => p.mandatory)
      let optionalPieces := selectedPieces.filter (fun p => !p.mandatory)
      let step1 : List Placement × List (Nat × Nat) :=
        if 0 < mandatoryPieces.length then
          match backtrackMandatory gridState gridSize mandatoryPieces [] [] with
          | some sol => sol
          | none => greedyLoop gridState gridSize mandatoryPieces []
        else ([], [])
      let step2 := greedyLoop gridState gridSize optionalPieces step1.2
      let solution := step1.1 ++ step2.1
      let coveredCells := coveredCellsOf solution
      let coveredProtected := coveredProtectedOf solution gridState
      let componentsPlaced := solution.length
      let totalComponents := selectedPieces.length
      let mandatoryPlaced :=
        (solution.filter (fun pl =>
          mandatoryPieces.any (fun m => m.priorityId == pl.priorityId))).length
      let totalMandatory := mandatoryPieces.length
      let baseMessage :=
        "Placed " ++ toString componentsPlaced ++ "/" ++ toString totalComponents ++
          " components"
      let headMessage :=
        if 0 < totalMandatory then
          if mandatoryPlaced < totalMandatory then
            "Warning: Only " ++ toString mandatoryPlaced ++ "/" ++
              toString totalMandatory ++ " mandatory components fit. " ++
              "Total: " ++ toString componentsPlaced ++ "/" ++
              toString totalComponents ++ " placed"
          else
            baseMessage ++ " (all " ++ toString totalMandatory ++ " mandatory)"
        else baseMessage
      let message :=
        headMessage ++ ", covering " ++ toString coveredCells ++ "/" ++
          toString poweredCount ++ " cells" ++
          (if 0 < protectedCount then
            " (" ++ toString coveredProtected ++ "/" ++ toString protectedCount ++
              " protected)"
          else "")
      let st : StatsM :=
        { placed := componentsPlaced
          total := totalComponents
          mandatoryPlaced := mandatoryPlaced
          totalMandatory := totalMandatory
          coveredCells := coveredCells
          poweredCount := poweredCount
          coveredProtected := coveredProtected
          protectedCount := protectedCount }
      { success := decide (0 < componentsPlaced)
        solution := solution
        message := message
        stats := some st }

/-- Modelled from the spec: the mandatory-instance hard cap.  The project README
documents a solver constant MAX_MANDATORY_PIECES = 8, but the solver.js revision
implementing the over-cap check is not among the source files here (both included
revisions lack it; only the README declaration and the UI callers are present).
Following the spec — "mandatory-instance count over the hard cap → explicit
rejection naming the cap and actual count", detected after the other input
validations and before any search — the check is layered in front of the
mandatory solver pipeline. -/
def solveMandatoryCapped (selectedPieces : List Piece)
    (gridState : List (List Nat)) (gridSize : Nat) : MSolveResult :=
  if selectedPieces.length = 0 then
    { success := false, solution := [], message := "No components selected",
      stats := none }
  else if countPoweredCells gridState gridSize = 0 then
    { success := false, solution := [], message := "No powered cells on the grid",
      stats := none }
  else if 8 < (selectedPieces.filter (fun p => p.mandatory)).length then
    { success := false, solution := [],
      message := "Too many mandatory components (" ++
        toString (selectedPieces.filter (fun p => p.mandatory)).length ++
        "). Maximum is 8.",
      stats := none }
  else solveMandatory selectedPieces gridState gridSize

/-- A single placement sits on in-bounds, powered-or-protected cells. -/
def PlacementOK (gridState : List (List Nat)) (gridSize : Nat)
    (pl : Placement) : Prop :=
  ∀ cell ∈ pl.cells, cell.1 < gridSize ∧ cell.2 < gridSize ∧
    (gridVal gridState cell.1 cell.2 = 1 ∨ gridVal gridState cell.1 cell.2 = 2)

/-- Two placements have disjoint occupied-cell sets. -/
def DisjointCells (p q : Placement) : Prop :=
  ∀ cell ∈ p.cells, cell ∉ q.cells

/-- The no-overlap, in-bounds, powered invariant of a returned solution. -/
def SolutionOK (gridState : List (List Nat)) (gridSize : Nat)
    (sol : List Placement) : Prop :=
  (∀ pl ∈ sol, PlacementOK gridState gridSize pl) ∧ sol.Pairwise DisjointCells

/-- Search invariant: the partial solution is sound and its cells all belong to
the occupancy set. -/
def SearchInv (gridState : List (List Nat)) (gridSize : Nat)
    (occ : List (Nat × Nat)) (sol : List Placement) : Prop :=
  SolutionOK gridState gridSize sol ∧ ∀ pl ∈ sol, ∀ cell ∈ pl.cells, cell ∈ occ

/-- Enumeration order of `getValidPlacements`: rotation index ascending, then
origin row ascending, then origin column ascending. -/
def enumLT (a b : Cand) : Prop :=
  a.rotIdx < b.rotIdx ∨
    (a.rotIdx = b.rotIdx ∧ (a.row < b.row ∨ (a.row = b.row ∧ a.col < b.col)))

/-- A feasible (rotation, origin) pair for a piece, as the spec describes
candidate enumeration: a rotation index into `getAllRotations`, an origin whose
bounding box fits the grid, passing `canPlace`, annotated with the protected
count of the placement. -/
def Feasible (piece : Piece) (gridState : List (List Nat))
    (occ : List (Nat × Nat)) (gridSize : Nat) (cand : Cand) : Prop :=
  cand.rotIdx < (getAllRotations piece.shape).length ∧
  cand.shape = (getAllRotations piece.shape).getD cand.rotIdx [] ∧
  cand.row + cand.shape.length ≤ gridSize ∧
  cand.col + (cand.shape.headD []).length ≤ gridSize ∧
  canPlace cand.shape cand.row cand.col gridState occ gridSize = true ∧
  cand.protectedCount = countProtectedCells cand.shape cand.row cand.col gridState

/-- A 1x1 instance flagged protect-preferred, for the concrete scenarios below. -/
def c1Piece : Piece :=
  { id := 1, priorityId := 1, name := "A", componentName := "A",
    shape := [[1]], mandatory := false, protectPreferred := true }

/-- A 2x2 grid whose only powered cell (0,0) is powered but not protected. -/
def c1Grid : List (List Nat) := [[1, 0], [0, 0]]

/-- A 1x1 mandatory instance with identity `i`. -/
def c2Piece (i : Nat) : Piece :=
  { id := i, priorityId := i, name := "m", componentName := "m",
    shape := [[1]], mandatory := true, protectPreferred := false }

/-- Nine mandatory 1x1 instances: one more than the mandatory cap of 8. -/
def c2Pieces : List Piece := (List.range 9).map c2Piece

/-- A fully powered 3x3 grid: exactly nine powered cells for nine 1-cell pieces. -/
def c2Grid : List (List Nat) := [[1, 1, 1], [1, 1, 1], [1, 1, 1]]

/-- A plain 1x1 instance for small witnesses. -/
def wPiece : Piece :=
  { id := 1, priorityId := 1, name := "A", componentName := "A",
    shape := [[1]], mandatory := false, protectPreferred := false }

/-- A single powered cell. -/
def wGrid : List (List Nat) := [[1]]

/-- A single unpowered cell. -/
def c9Grid : List (List Nat) := [[0]]

/-- An asymmetric 2x2 mask for the rotation-closure witness. -/
def wShape : List (List Nat) := [[1, 0], [1, 1]]

theorem headD_eq_getD {α : Type} (l : List α) (d : α) : l.headD d = l.getD 0 d := by
  cases l <;> rfl

theorem rotateShape_length (s : List (List Nat)) :
    (rotateShape s).length = (s.headD []).length := by
  simp [rotateShape]

theorem rotateShape_getD (s : List (List Nat)) (c : Nat)
    (hc : c < (s.headD []).length) :
    (rotateShape s).getD c [] =
      (List.range s.length).map (fun k => (s.getD (s.length - 1 - k) []).getD c 0) := by
  have hlen : c < (rotateShape s).length := by rw [rotateShape_length]; exact hc
  rw [List.getD_eq_getElem _ _ hlen]
  unfold rotateShape
  rw [List.getElem_map]
  simp [List.getElem_range]

theorem rotateShape_row_length (s : List (List Nat)) (c : Nat)
    (hc : c < (s.headD []).length) :
    ((rotateShape s).getD c []).length = s.length := by
  rw [rotateShape_getD s c hc]; simp

theorem rotateShape_entry (s : List (List Nat)) (c k : Nat)
    (hc : c < (s.headD []).length) (hk : k < s.length) :
    ((rotateShape s).getD c []).getD k 0 =
      (s.getD (s.length - 1 - k) []).getD c 0 := by
  rw [rotateShape_getD s c hc]
  have hk2 : k < ((List.range s.length).map
      (fun k => (s.getD (s.length - 1 - k) []).getD c 0)).length := by simpa using hk
  rw [List.getD_eq_getElem _ _ hk2, List.getElem_map]
  simp [List.getElem_range]

theorem rotateShape_headD_length (s : List (List Nat))
    (hc : (s.headD []).length ≠ 0) :
    ((rotateShape s).headD []).length = s.length := by
  rw [headD_eq_getD]
  exact rotateShape_row_length s 0 (Nat.pos_of_ne_zero hc)

theorem canPlace_iff (shape : List (List Nat)) (startRow startCol : Nat)
    (gridState : List (List Nat)) (occ : List (Nat × Nat)) (gridSize : Nat) :
    canPlace shape startRow startCol gridState occ gridSize = true ↔
      ∀ cell ∈ getOccupiedCells shape startRow startCol,
        cell.1 < gridSize ∧ cell.2 < gridSize ∧
        (gridVal gridState cell.1 cell.2 = 1 ∨ gridVal gridState cell.1 cell.2 = 2) ∧
        cell ∉ occ := by
  simp [canPlace, List.all_eq_true, isPowered, and_assoc]

theorem mem_addCells (cells occ : List (Nat × Nat)) (a : Nat × Nat) :
    a ∈ addCells cells occ ↔ a ∈ occ ∨ a ∈ cells := by
  induction cells generalizing occ with
  | nil => simp [addCells]
  | cons k ks ih =>
      show a ∈ addCells ks (if occ.contains k then occ else occ ++ [k]) ↔ _
      rw [ih]
      by_cases h : occ.contains k
      · have hk : k ∈ occ := by simpa using h
        simp only [if_pos h, List.mem_cons]
        constructor
        · rintro (h1 | h1)
          · exact Or.inl h1
          · exact Or.inr (Or.inr h1)
        · rintro (h1 | h1 | h1)
          · exact Or.inl h1
          · exact Or.inl (h1 ▸ hk)
          · exact Or.inr h1
      · simp only [if_neg h, List.mem_append, List.mem_singleton, List.mem_cons]
        tauto

theorem mem_insertDesc (a x : Cand) (l : List Cand) :
    x ∈ insertDesc a l ↔ x = a ∨ x ∈ l := by
  induction l with
  | nil => simp [insertDesc]
  | cons h t ih =>
      unfold insertDesc
      split
      · simp [List.mem_cons]
      · simp only [List.mem_cons, ih]
        tauto

theorem mem_sortCands (x : Cand) (l : List Cand) :
    x ∈ sortCands l ↔ x ∈ l := by
  induction l with
  | nil => simp [sortCands]
  | cons h t ih =>
      unfold sortCands
      rw [mem_insertDesc, ih, List.mem_cons]

theorem mem_enumCands_canPlace {cand : Cand} {piece : Piece}
    {gridState : List (List Nat)} {occ : List (Nat × Nat)} {gridSize : Nat}
    (h : cand ∈ enumCands piece gridState occ gridSize) :
    canPlace cand.shape cand.row cand.col gridState occ gridSize = true := by
  unfold enumCands at h
  simp only [List.mem_flatten, List.mem_map, List.mem_filterMap] at h
  obtain ⟨inner, ⟨rs, _, rfl⟩, h⟩ := h
  simp only [List.mem_flatten, List.mem_map] at h
  obtain ⟨colList, ⟨⟨row, _, rfl⟩, h⟩⟩ := h
  rw [List.mem_filterMap] at h
  obtain ⟨col, _, hif⟩ := h
  by_cases hcp : canPlace rs.2 row col gridState occ gridSize
  · rw [if_pos hcp] at hif
    obtain rfl : cand = _ := (Option.some_inj.mp hif).symm
    exact hcp
  · rw [if_neg hcp] at hif
    exact absurd hif (by simp)

theorem mem_getValidPlacements_canPlace {cand : Cand} {piece : Piece}
    {gridState : List (List Nat)} {occ : List (Nat × Nat)} {gridSize : Nat}
    (h : cand ∈ getValidPlacements piece gridState occ gridSize) :
    canPlace cand.shape cand.row cand.col gridState occ gridSize = true :=
  mem_enumCands_canPlace ((mem_sortCands _ _).mp h)

theorem searchInv_nil (gridState : List (List Nat)) (gridSize : Nat) :
    SearchInv gridState gridSize [] [] := by
  refine ⟨⟨?_, ?_⟩, ?_⟩ <;> simp

theorem inv_extend {gridState : List (List Nat)} {gridSize : Nat}
    {occ : List (Nat × Nat)} {sol : List Placement} (p : Piece) {cand : Cand}
    (hInv : SearchInv gridState gridSize occ sol)
    (hcp : canPlace cand.shape cand.row cand.col gridState occ gridSize = true) :
    SearchInv gridState gridSize
      (addCells (getOccupiedCells cand.shape cand.row cand.col) occ)
      (sol ++ [mkPlacement p cand]) := by
  obtain ⟨⟨hok, hdisj⟩, hocc⟩ := hInv
  rw [canPlace_iff] at hcp
  refine ⟨⟨?_, ?_⟩, ?_⟩
  · intro pl hpl
    rcases List.mem_append.mp hpl with h | h
    · exact hok pl h
    · rw [List.mem_singleton] at h
      subst h
      intro cell hcell
      have hc := hcp cell (by simpa [mkPlacement] using hcell)
      exact ⟨hc.1, hc.2.1, hc.2.2.1⟩
  · rw [List.pairwise_append]
    refine ⟨hdisj, by simp, ?_⟩
    intro a ha b hb
    rw [List.mem_singleton] at hb
    subst hb
    intro cell hcell hcell2
    have h1 : cell ∈ occ := hocc a ha cell hcell
    have h2 := hcp cell (by simpa [mkPlacement] using hcell2)
    exact h2.2.2.2 h1
  · intro pl hpl cell hcell
    rw [mem_addCells]
    rcases List.mem_append.mp hpl with h | h
    · exact Or.inl (hocc pl h cell hcell)
    · rw [List.mem_singleton] at h
      subst h
      exact Or.inr (by simpa [mkPlacement] using hcell)

theorem candLoop_inv {gridState : List (List Nat)} {gridSize : Nat}
    {recurse onExhausted : List (Nat × Nat) → List Placement → Nat → Bool → BTRes}
    {p : Piece}
    (hrec : ∀ occ sol cnt exc fin occF cnt2 exc2,
      SearchInv gridState gridSize occ sol →
      recurse occ sol cnt exc = (some (fin, occF), cnt2, exc2) →
      SolutionOK gridState gridSize fin)
    (hexh : ∀ occ sol cnt exc fin occF cnt2 exc2,
      SearchInv gridState gridSize occ sol →
      onExhausted occ sol cnt exc = (some (fin, occF), cnt2, exc2) →
      SolutionOK gridState gridSize fin) :
    ∀ cands occ sol cnt exc fin occF cnt2 exc2,
      (∀ cand ∈ cands,
        canPlace cand.shape cand.row cand.col gridState occ gridSize = true) →
      SearchInv gridState gridSize occ sol →
      candLoop recurse onExhausted p cands occ sol cnt exc =
        (some (fin, occF), cnt2, exc2) →
      SolutionOK gridState gridSize fin := by
  intro cands
  induction cands with
  | nil =>
      intro occ sol cnt exc fin occF cnt2 exc2 _ hInv heq
      exact hexh occ sol cnt exc fin occF cnt2 exc2 hInv heq
  | cons cand more ih =>
      intro occ sol cnt exc fin occF cnt2 exc2 hcands hInv heq
      unfold candLoop at heq
      split at heq
      · exact absurd (congrArg (fun x => x.1) heq) (by simp)
      · rcases hres : recurse
            (addCells (getOccupiedCells cand.shape cand.row cand.col) occ)
            (sol ++ [mkPlacement p cand]) cnt exc with ⟨ros, rc, re⟩
        rw [hres] at heq
        cases ros with
        | some s =>
            simp only [Prod.mk.injEq, Option.some.injEq] at heq
            obtain ⟨rfl, rfl, rfl⟩ := heq
            exact hrec _ _ _ _ _ _ _ _
              (inv_extend p hInv (hcands cand (List.mem_cons_self _ _))) hres
        | none =>
            simp only at heq
            exact ih occ sol rc re fin occF cnt2 exc2
              (fun c hc => hcands c (List.mem_cons_of_mem _ hc)) hInv heq

theorem btStrict_inv (gridState : List (List Nat)) (gridSize : Nat) :
    ∀ pieces occ sol cnt exc fin occF cnt2 exc2,
      SearchInv gridState gridSize occ sol →
      btStrict gridState gridSize pieces occ sol cnt exc =
        (some (fin, occF), cnt2, exc2) →
      SolutionOK gridState gridSize fin := by
  intro pieces
  induction pieces with
  | nil =>
      intro occ sol cnt exc fin occF cnt2 exc2 hInv heq
      unfold btStrict at heq
      split at heq
      · exact absurd (congrArg (fun x => x.1) heq) (by simp)
      · simp only [Prod.mk.injEq, Option.some.injEq] at heq
        obtain ⟨⟨rfl, rfl⟩, -, -⟩ := heq
        exact hInv.1
  | cons p rest ih =>
      intro occ sol cnt exc fin occF cnt2 exc2 hInv heq
      unfold btStrict at heq
      split at heq
      · exact absurd (congrArg (fun x => x.1) heq) (by simp)
      · refine candLoop_inv ?_ ?_ _ occ sol (cnt + 1) exc fin occF cnt2 exc2 ?_ hInv heq
        · intro occ3 sol3 cnt3 exc3 fin3 occF3 cnt4 exc4 hInv3 heq3
          exact ih occ3 sol3 cnt3 exc3 fin3 occF3 cnt4 exc4 hInv3 heq3
        · intro occ3 sol3 cnt3 exc3 fin3 occF3 cnt4 exc4 _ heq3
          exact absurd (congrArg (fun x => x.1) heq3) (by simp)
        · intro cand hc
          exact mem_getValidPlacements_canPlace (List.mem_of_mem_take hc)

theorem btSkip_inv (gridState : List (List Nat)) (gridSize : Nat) :
    ∀ pieces occ sol cnt exc fin occF cnt2 exc2,
      SearchInv gridState gridSize occ sol →
      btSkip gridState gridSize pieces occ sol cnt exc =
        (some (fin, occF), cnt2, exc2) →
      SolutionOK gridState gridSize fin := by
  intro pieces
  induction pieces with
  | nil =>
      intro occ sol cnt exc fin occF cnt2 exc2 hInv heq
      unfold btSkip at heq
      split at heq
      · exact absurd (congrArg (fun x => x.1) heq) (by simp)
      · simp only [Prod.mk.injEq, Option.some.injEq] at heq
        obtain ⟨⟨rfl, rfl⟩, -, -⟩ := heq
        exact hInv.1
  | cons p rest ih =>
      intro occ sol cnt exc fin occF cnt2 exc2 hInv heq
      unfold btSkip at heq
      split at heq
      · exact absurd (congrArg (fun x => x.1) heq) (by simp)
      · refine candLoop_inv ?_ ?_ _ occ sol (cnt + 1) exc fin occF cnt2 exc2 ?_ hInv heq
        · intro occ3 sol3 cnt3 exc3 fin3 occF3 cnt4 exc4 hInv3 heq3
          exact ih occ3 sol3 cnt3 exc3 fin3 occF3 cnt4 exc4 hInv3 heq3
        · intro occ3 sol3 cnt3 exc3 fin3 occF3 cnt4 exc4 hInv3 heq3
          exact ih occ3 sol3 cnt3 exc3 fin3 occF3 cnt4 exc4 hInv3 heq3
        · intro cand hc
          exact mem_getValidPlacements_canPlace (List.mem_of_mem_take hc)

theorem greedyLoop_inv (gridState : List (List Nat)) (gridSize : Nat) :
    ∀ pieces occ sol, SearchInv gridState gridSize occ sol →
      SearchInv gridState gridSize (greedyLoop gridState gridSize pieces occ).2
        (sol ++ (greedyLoop gridState gridSize pieces occ).1) := by
  intro pieces
  induction pieces with
  | nil => intro occ sol hInv; simpa [greedyLoop] using hInv
  | cons p rest ih =>
      intro occ sol hInv
      unfold greedyLoop
      cases htp : tryPlacePiece p gridState occ gridSize with
      | none => simpa using ih occ sol hInv
      | some pr =>
          unfold tryPlacePiece at htp
          rcases hgvp : getValidPlacements p gridState occ gridSize with _ | ⟨best, tl⟩
          · rw [hgvp] at htp; simp at htp
          · rw [hgvp] at htp
            simp only [Option.some.injEq] at htp
            subst htp
            have hbest : canPlace best.shape best.row best.col gridState occ gridSize
                = true :=
              mem_getValidPlacements_canPlace (by rw [hgvp]; exact List.mem_cons_self _ _)
            have hInv2 := inv_extend p hInv hbest
            have h3 := ih (addCells (getOccupiedCells best.shape best.row best.col) occ)
              (sol ++ [mkPlacement p best]) hInv2
            simpa [List.append_assoc] using h3

theorem solutionOK_nil (gridState : List (List Nat)) (gridSize : Nat) :
    SolutionOK gridState gridSize [] := by
  constructor <;> simp

theorem solutionOK_greedy (gridState : List (List Nat)) (gridSize : Nat)
    (pieces : List Piece) :
    SolutionOK gridState gridSize (greedyLoop gridState gridSize pieces []).1 := by
  have h := greedyLoop_inv gridState gridSize pieces [] [] (searchInv_nil _ _)
  simpa using h.1

theorem solutionOK_solve (pieces : List Piece) (gridState : List (List Nat))
    (gridSize : Nat) :
    SolutionOK gridState gridSize (solve pieces gridState gridSize).solution := by
  unfold solve
  by_cases h1 : pieces.length = 0
  · simp only [if_pos h1]
    exact solutionOK_nil _ _
  rw [if_neg h1]
  by_cases h2 : countPoweredCells gridState gridSize = 0
  · simp only [h2, if_pos rfl]
    exact solutionOK_nil _ _
  simp only [h2, if_neg (by simp : ¬(False : Prop))]
  by_cases h3 : pieces.length ≤ 8
  · simp only [if_pos h3]
    rcases hbs : btStrict gridState gridSize pieces [] [] 0 false with ⟨os, c, e⟩
    cases os with
    | some s =>
        obtain ⟨fin, occF⟩ := s
        exact btStrict_inv _ _ pieces [] [] 0 false fin occF c e (searchInv_nil _ _) hbs
    | none =>
        rcases hbk : btSkip gridState gridSize pieces [] [] 0 false with ⟨os2, c2, e2⟩
        cases os2 with
        | some s2 =>
            obtain ⟨fin, occF⟩ := s2
            exact btSkip_inv _ _ pieces [] [] 0 false fin occF c2 e2
              (searchInv_nil _ _) hbk
        | none =>
            exact solutionOK_greedy _ _ _
  · rw [if_neg h3]
    exact solutionOK_greedy _ _ _

theorem btStrict_complete (gridState : List (List Nat)) (gridSize : Nat) :
    ∀ pieces occ sol cnt exc fin occF cnt2 exc2,
      btStrict gridState gridSize pieces occ sol cnt exc =
        (some (fin, occF), cnt2, exc2) →
      fin.length = sol.length + pieces.length := by
  intro pieces
  induction pieces with
  | nil =>
      intro occ sol cnt exc fin occF cnt2 exc2 heq
      unfold btStrict at heq
      split at heq
      · exact absurd (congrArg (fun x => x.1) heq) (by simp)
      · simp only [Prod.mk.injEq, Option.some.injEq] at heq
        obtain ⟨⟨rfl, rfl⟩, -, -⟩ := heq
        simp
  | cons p rest ih =>
      intro occ sol cnt exc fin occF cnt2 exc2 heq
      unfold btStrict at heq
      split at heq
      · exact absurd (congrArg (fun x => x.1) heq) (by simp)
      · have loop : ∀ cands occ3 sol3 cnt3 exc3 fin3 occF3 cnt4 exc4,
            candLoop
              (fun occ2 pl2 c2 e2 => btStrict gridState gridSize rest occ2 pl2 c2 e2)
              (fun _ _ c2 e2 => (none, c2, e2)) p cands occ3 sol3 cnt3 exc3 =
              (some (fin3, occF3), cnt4, exc4) →
            fin3.length = sol3.length + rest.length + 1 := by
          intro cands
          induction cands with
          | nil =>
              intro occ3 sol3 cnt3 exc3 fin3 occF3 cnt4 exc4 h
              unfold candLoop at h
              exact absurd (congrArg (fun x => x.1) h) (by simp)
          | cons cand more ihc =>
              intro occ3 sol3 cnt3 exc3 fin3 occF3 cnt4 exc4 h
              unfold candLoop at h
              split at h
              · exact absurd (congrArg (fun x => x.1) h) (by simp)
              · rcases hres : btStrict gridState gridSize rest
                    (addCells (getOccupiedCells cand.shape cand.row cand.col) occ3)
                    (sol3 ++ [mkPlacement p cand]) cnt3 exc3 with ⟨ros, rc, re⟩
                rw [hres] at h
                cases ros with
                | some s =>
                    simp only [Prod.mk.injEq, Option.some.injEq] at h
                    obtain ⟨rfl, -, -⟩ := h
                    have := ih _ _ _ _ _ _ _ _ hres
                    simp only [List.length_append, List.length_singleton] at this
                    omega
                | none =>
                    simp only at h
                    exact ihc _ _ _ _ _ _ _ _ h
        have h := loop _ _ _ _ _ _ _ _ _ heq
        simp only [List.length_cons]
        omega

theorem mem_originRange (gridSize len r : Nat) :
    r ∈ originRange gridSize len ↔ r + len ≤ gridSize := by
  unfold originRange
  split <;> simp [List.mem_range] <;> omega

theorem mem_enum_of_getElem {α : Type} (l : List α) (i : Nat) (h : i < l.length) :
    (i, l[i]) ∈ l.enum := by
  have h2 : i < l.enum.length := by simpa [List.enum_length] using h
  have h3 := List.getElem_enum l i h2
  rw [← h3]
  exact List.getElem_mem h2

theorem mem_enumCands (piece : Piece) (gridState : List (List Nat))
    (occ : List (Nat × Nat)) (gridSize : Nat) (cand : Cand) :
    cand ∈ enumCands piece gridState occ gridSize ↔
      Feasible piece gridState occ gridSize cand := by
  unfold enumCands Feasible
  simp only [List.mem_flatten, List.mem_map]
  constructor
  · rintro ⟨inner, ⟨rs, hrs, rfl⟩, h⟩
    simp only [List.mem_flatten, List.mem_map] at h
    obtain ⟨colList, ⟨row, hrow, rfl⟩, h⟩ := h
    rw [List.mem_filterMap] at h
    obtain ⟨col, hcol, hif⟩ := h
    by_cases hcp : canPlace rs.2 row col gridState occ gridSize
    · rw [if_pos hcp] at hif
      obtain rfl := Option.some_inj.mp hif
      obtain ⟨i, rot⟩ := rs
      obtain ⟨hlt, hget⟩ := List.mem_enum hrs
      simp only at hcp hrow hcol ⊢
      rw [mem_originRange] at hrow hcol
      refine ⟨hlt, ?_, by omega, by omega, hcp, by trivial⟩
      rw [List.getD_eq_getElem _ _ hlt]
      exact hget
    · rw [if_neg hcp] at hif
      exact absurd hif (by simp)
  · rintro ⟨hlt, hshape, hrow, hcol, hcp, hcount⟩
    refine ⟨_, ⟨(cand.rotIdx, (getAllRotations piece.shape)[cand.rotIdx]), 
      mem_enum_of_getElem _ _ hlt, rfl⟩, ?_⟩
    have hsh : (getAllRotations piece.shape)[cand.rotIdx] = cand.shape := by
      rw [hshape, List.getD_eq_getElem _ _ hlt]
    simp only [List.mem_flatten, List.mem_map]
    refine ⟨_, ⟨cand.row, ?_, rfl⟩, ?_⟩
    · rw [hsh, mem_originRange]; omega
    · rw [List.mem_filterMap]
      refine ⟨cand.col, ?_, ?_⟩
      · rw [hsh, mem_originRange]; omega
      · rw [hsh]
        rw [if_pos hcp]
        obtain ⟨cs, cr, cc, cri, cpc⟩ := cand
        simp only at hcount ⊢
        rw [hcount]

theorem insertDesc_perm (a : Cand) (l : List Cand) :
    (insertDesc a l).Perm (a :: l) := by
  induction l with
  | nil => simp [insertDesc]
  | cons h t ih =>
      simp only [insertDesc]
      split
      · exact List.Perm.refl _
      · exact (ih.cons h).trans (List.Perm.swap a h t)

theorem sortCands_perm (l : List Cand) : (sortCands l).Perm l := by
  induction l with
  | nil => simp [sortCands]
  | cons x t ih =>
      simp only [sortCands]
      exact (insertDesc_perm x (sortCands t)).trans (ih.cons x)

theorem insertDesc_sorted (a : Cand) (l : List Cand)
    (h : l.Pairwise (fun x y => y.protectedCount ≤ x.protectedCount)) :
    (insertDesc a l).Pairwise (fun x y => y.protectedCount ≤ x.protectedCount) := by
  induction l with
  | nil => simp [insertDesc]
  | cons hd t ih =>
      rw [List.pairwise_cons] at h
      simp only [insertDesc]
      by_cases hle : hd.protectedCount ≤ a.protectedCount
      · rw [if_pos hle, List.pairwise_cons]
        refine ⟨?_, List.pairwise_cons.mpr h⟩
        intro b hb
        rcases List.mem_cons.mp hb with rfl | hb
        · exact hle
        · have := h.1 b hb
          omega
      · rw [if_neg hle, List.pairwise_cons]
        constructor
        · intro b hb
          rw [mem_insertDesc] at hb
          rcases hb with rfl | hb
          · omega
          · exact h.1 b hb
        · exact ih h.2

theorem sortCands_sorted (l : List Cand) :
    (sortCands l).Pairwise (fun x y => y.protectedCount ≤ x.protectedCount) := by
  induction l with
  | nil => simp [sortCands]
  | cons x t ih =>
      simp only [sortCands]
      exact insertDesc_sorted x _ ih

theorem insertDesc_tie (a : Cand) (l : List Cand)
    (hP : l.Pairwise (fun x y => x.protectedCount = y.protectedCount → enumLT x y))
    (ha : ∀ x ∈ l, enumLT a x) :
    (insertDesc a l).Pairwise
      (fun x y => x.protectedCount = y.protectedCount → enumLT x y) := by
  induction l with
  | nil => simp [insertDesc]
  | cons hd t ih =>
      rw [List.pairwise_cons] at hP
      simp only [insertDesc]
      by_cases hle : hd.protectedCount ≤ a.protectedCount
      · rw [if_pos hle, List.pairwise_cons]
        refine ⟨fun b hb _ => ha b hb, List.pairwise_cons.mpr hP⟩
      · rw [if_neg hle, List.pairwise_cons]
        constructor
        · intro b hb heq
          rw [mem_insertDesc] at hb
          rcases hb with rfl | hb
          · omega
          · exact hP.1 b hb heq
        · exact ih hP.2 (fun x hx => ha x (List.mem_cons_of_mem _ hx))

theorem sortCands_tie (l : List Cand) (h : l.Pairwise enumLT) :
    (sortCands l).Pairwise
      (fun x y => x.protectedCount = y.protectedCount → enumLT x y) := by
  induction l with
  | nil => simp [sortCands]
  | cons x t ih =>
      rw [List.pairwise_cons] at h
      simp only [sortCands]
      refine insertDesc_tie x _ (ih h.2) ?_
      intro y hy
      exact h.1 y ((mem_sortCands y t).mp hy)

theorem pairwise_fst_lt_enum {α : Type} (l : List α) :
    l.enum.Pairwise (fun x y => x.1 < y.1) := by
  rw [List.pairwise_iff_getElem]
  intro i j hi hj hij
  rw [List.getElem_enum, List.getElem_enum]
  simpa using hij

theorem pairwise_lt_originRange (gridSize len : Nat) :
    (originRange gridSize len).Pairwise (fun a b => a < b) := by
  unfold originRange
  split
  · exact List.pairwise_lt_range _
  · simp

theorem mem_colList_fields {gridState : List (List Nat)}
    {occ : List (Nat × Nat)} {gridSize : Nat}
    {rs : Nat × List (List Nat)} {row : Nat} {x : Cand}
    (hx : x ∈ (originRange gridSize (rs.2.headD []).length).filterMap (fun col =>
        if canPlace rs.2 row col gridState occ gridSize then
          some { shape := rs.2, row := row, col := col, rotIdx := rs.1,
                 protectedCount := countProtectedCells rs.2 row col gridState }
        else none)) :
    x.rotIdx = rs.1 ∧ x.row = row := by
  rw [List.mem_filterMap] at hx
  obtain ⟨col, hcol, hif⟩ := hx
  by_cases hcp : canPlace rs.2 row col gridState occ gridSize
  · rw [if_pos hcp] at hif
    obtain rfl := Option.some_inj.mp hif
    exact ⟨rfl, rfl⟩
  · rw [if_neg hcp] at hif
    exact absurd hif (by simp)

theorem mem_rotList_fields {gridState : List (List Nat)}
    {occ : List (Nat × Nat)} {gridSize : Nat}
    {rs : Nat × List (List Nat)} {x : Cand}
    (hx : x ∈ ((originRange gridSize rs.2.length).map (fun row =>
      (originRange gridSize (rs.2.headD []).length).filterMap (fun col =>
        if canPlace rs.2 row col gridState occ gridSize then
          some { shape := rs.2, row := row, col := col, rotIdx := rs.1,
                 protectedCount := countProtectedCells rs.2 row col gridState }
        else none))).flatten) :
    x.rotIdx = rs.1 := by
  rw [List.mem_flatten] at hx
  obtain ⟨l, hl, hx⟩ := hx
  rw [List.mem_map] at hl
  obtain ⟨row, _, rfl⟩ := hl
  exact (mem_colList_fields hx).1

theorem enumCands_pairwise (piece : Piece) (gridState : List (List Nat))
    (occ : List (Nat × Nat)) (gridSize : Nat) :
    (enumCands piece gridState occ gridSize).Pairwise enumLT := by
  unfold enumCands
  rw [List.pairwise_flatten]
  constructor
  · intro l hl
    rw [List.mem_map] at hl
    obtain ⟨rs, _, rfl⟩ := hl
    rw [List.pairwise_flatten]
    constructor
    · intro l2 hl2
      rw [List.mem_map] at hl2
      obtain ⟨row, _, rfl⟩ := hl2
      rw [List.pairwise_filterMap]
      refine List.Pairwise.imp ?_ (pairwise_lt_originRange gridSize _)
      intro c1 c2 hlt x hx y hy
      by_cases h1 : canPlace rs.2 row c1 gridState occ gridSize
      · rw [if_pos h1] at hx
        obtain rfl := Option.mem_some_iff.mp hx
        by_cases h2 : canPlace rs.2 row c2 gridState occ gridSize
        · rw [if_pos h2] at hy
          obtain rfl := Option.mem_some_iff.mp hy
          right
          exact ⟨rfl, Or.inr ⟨rfl, hlt⟩⟩
        · rw [if_neg h2] at hy
          exact absurd hy (by simp)
      · rw [if_neg h1] at hx
        exact absurd hx (by simp)
    · rw [List.pairwise_map]
      refine List.Pairwise.imp ?_ (pairwise_lt_originRange gridSize _)
      intro r1 r2 hlt x hx y hy
      obtain ⟨hxrot, hxrow⟩ := mem_colList_fields hx
      obtain ⟨hyrot, hyrow⟩ := mem_colList_fields hy
      right
      rw [hxrot, hyrot, hxrow, hyrow]
      exact ⟨rfl, Or.inl hlt⟩
  · rw [List.pairwise_map]
    refine List.Pairwise.imp ?_ (pairwise_fst_lt_enum _)
    intro rs1 rs2 hlt x hx y hy
    have hxr := mem_rotList_fields hx
    have hyr := mem_rotList_fields hy
    left
    rw [hxr, hyr]
    exact hlt

/-- C1 (counterexample): the claim "an instance with protectPreferred = true never
appears in a solution with any occupied cell whose grid state is not Protected"
fails on the code: on a 2x2 grid whose only powered cell (0,0) has state 1
(powered, not protected), `solve` places the protect-preferred 1x1 instance on
that non-protected cell. -/
theorem solve_protectPreferred_violated :
    ¬ (∀ pl ∈ (solve [c1Piece] c1Grid 2).solution,
        (∃ p ∈ [c1Piece], p.id = pl.pieceId ∧ p.protectPreferred = true) →
        ∀ cell ∈ pl.cells, gridVal c1Grid cell.1 cell.2 = 2) := by
  decide

/-- C1 (amended): the solver never reads any protect flag.  `canPlace` accepts a
placement exactly when every occupied cell is in bounds, has grid state 1
(powered) or 2 (protected), and is unoccupied — so non-protected powered cells
are acceptable for every instance, protect-preferred or not; protected cells are
only preferred through the candidate ordering. -/
theorem canPlace_no_protect_requirement (shape : List (List Nat))
    (startRow startCol : Nat) (gridState : List (List Nat))
    (occ : List (Nat × Nat)) (gridSize : Nat) :
    canPlace shape startRow startCol gridState occ gridSize = true ↔
      ∀ cell ∈ getOccupiedCells shape startRow startCol,
        cell.1 < gridSize ∧ cell.2 < gridSize ∧
        (gridVal gridState cell.1 cell.2 = 1 ∨ gridVal gridState cell.1 cell.2 = 2) ∧
        cell ∉ occ :=
  canPlace_iff shape startRow startCol gridState occ gridSize

theorem canPlace_no_protect_requirement_witness :
    canPlace [[1]] 0 0 c1Grid [] 2 = true ↔
      ∀ cell ∈ getOccupiedCells [[1]] 0 0,
        cell.1 < 2 ∧ cell.2 < 2 ∧
        (gridVal c1Grid cell.1 cell.2 = 1 ∨ gridVal c1Grid cell.1 cell.2 = 2) ∧
        cell ∉ ([] : List (Nat × Nat)) :=
  canPlace_no_protect_requirement [[1]] 0 0 c1Grid [] 2

/-- C2: a call whose mandatory-instance count exceeds the hard cap of 8 returns
the structured over-cap rejection naming the cap and the actual count, with an
empty solution and no search performed (the result is the early-return literal,
produced before the backtracking pipeline). -/
theorem solveMandatoryCapped_overCap (pieces : List Piece)
    (gridState : List (List Nat)) (gridSize : Nat)
    (h1 : pieces.length ≠ 0) (h2 : countPoweredCells gridState gridSize ≠ 0)
    (h3 : 8 < (pieces.filter (fun p => p.mandatory)).length) :
    solveMandatoryCapped pieces gridState gridSize =
      { success := false, solution := [],
        message := "Too many mandatory components (" ++
          toString (pieces.filter (fun p => p.mandatory)).length ++
          "). Maximum is 8.",
        stats := none } := by
  unfold solveMandatoryCapped
  rw [if_neg h1, if_neg h2, if_pos h3]

theorem solveMandatoryCapped_overCap_witness :
    (c2Pieces.length ≠ 0 ∧ countPoweredCells c2Grid 3 ≠ 0 ∧
      8 < (c2Pieces.filter (fun p => p.mandatory)).length) ∧
    solveMandatoryCapped c2Pieces c2Grid 3 =
      { success := false, solution := [],
        message := "Too many mandatory components (" ++
          toString (c2Pieces.filter (fun p => p.mandatory)).length ++
          "). Maximum is 8.",
        stats := none } :=
  ⟨⟨by decide, by decide, by decide⟩,
    solveMandatoryCapped_overCap c2Pieces c2Grid 3 (by decide) (by decide)
      (by decide)⟩

/-- The solver revision included under src (no cap check) runs the mandatory
backtracking search with 9 mandatory instances and places all of them: the
over-cap rejection exists only in the revision the README documents. -/
theorem solveMandatory_searches_nine_mandatory :
    (solveMandatory c2Pieces c2Grid 3).success = true ∧
    (solveMandatory c2Pieces c2Grid 3).solution.length = 9 := by
  constructor <;> decide

/-- C3: every solution returned by `solve` — from strict backtracking,
skip-allowed backtracking, or the greedy fallback — has all occupied cells
inside [0, gridSize) x [0, gridSize) on cells of state 1 (powered) or 2
(protected), never on other states, and the occupied-cell sets of its
placements are pairwise disjoint. -/
theorem solve_solution_invariants (pieces : List Piece)
    (gridState : List (List Nat)) (gridSize : Nat) :
    (∀ pl ∈ (solve pieces gridState gridSize).solution, ∀ cell ∈ pl.cells,
      cell.1 < gridSize ∧ cell.2 < gridSize ∧
      (gridVal gridState cell.1 cell.2 = 1 ∨ gridVal gridState cell.1 cell.2 = 2)) ∧
    (solve pieces gridState gridSize).solution.Pairwise
      (fun p q => ∀ cell ∈ p.cells, cell ∉ q.cells) := by
  have h := solutionOK_solve pieces gridState gridSize
  exact ⟨fun pl hpl => h.1 pl hpl, h.2⟩

theorem solve_solution_invariants_witness :
    (∀ pl ∈ (solve [c1Piece] c1Grid 2).solution, ∀ cell ∈ pl.cells,
      cell.1 < 2 ∧ cell.2 < 2 ∧
      (gridVal c1Grid cell.1 cell.2 = 1 ∨ gridVal c1Grid cell.1 cell.2 = 2)) ∧
    (solve [c1Piece] c1Grid 2).solution.Pairwise
      (fun p q => ∀ cell ∈ p.cells, cell ∉ q.cells) :=
  solve_solution_invariants [c1Piece] c1Grid 2

/-- C4: escalation order of `solve` past validation.  With at most 8 instances,
strict backtracking runs first: a non-null strict result is the returned
solution and places every instance; when strict returns null, a non-null
skip-allowed result is returned, and only a null skip-allowed result falls back
to single-pass greedy placement.  With more than 8 instances the solution is the
greedy pass directly. -/
theorem solve_escalation (pieces : List Piece) (gridState : List (List Nat))
    (gridSize : Nat) (h1 : pieces.length ≠ 0)
    (h2 : countPoweredCells gridState gridSize ≠ 0) :
    (pieces.length ≤ 8 →
      (∀ fin occF cnt exc,
        btStrict gridState gridSize pieces [] [] 0 false =
          (some (fin, occF), cnt, exc) →
        (solve pieces gridState gridSize).solution = fin ∧
          fin.length = pieces.length) ∧
      (∀ cnt exc,
        btStrict gridState gridSize pieces [] [] 0 false = (none, cnt, exc) →
        (∀ fin occF cnt2 exc2,
          btSkip gridState gridSize pieces [] [] 0 false =
            (some (fin, occF), cnt2, exc2) →
          (solve pieces gridState gridSize).solution = fin) ∧
        (∀ cnt2 exc2,
          btSkip gridState gridSize pieces [] [] 0 false = (none, cnt2, exc2) →
          (solve pieces gridState gridSize).solution =
            (greedyLoop gridState gridSize pieces []).1))) ∧
    (8 < pieces.length →
      (solve pieces gridState gridSize).solution =
        (greedyLoop gridState gridSize pieces []).1) := by
  constructor
  · intro h3
    constructor
    · intro fin occF cnt exc hbs
      refine ⟨?_, ?_⟩
      · unfold solve
        rw [if_neg h1]
        simp only [h2, if_neg (by simp : ¬(False : Prop)), if_pos h3, hbs]
      · have := btStrict_complete gridState gridSize pieces [] [] 0 false
          fin occF cnt exc hbs
        simpa using this
    · intro cnt exc hbs
      constructor
      · intro fin occF cnt2 exc2 hbk
        unfold solve
        rw [if_neg h1]
        simp only [h2, if_neg (by simp : ¬(False : Prop)), if_pos h3, hbs, hbk]
      · intro cnt2 exc2 hbk
        unfold solve
        rw [if_neg h1]
        simp only [h2, if_neg (by simp : ¬(False : Prop)), if_pos h3, hbs, hbk]
  · intro h3
    unfold solve
    rw [if_neg h1]
    simp only [h2, if_neg (by simp : ¬(False : Prop)),
      if_neg (by omega : ¬(pieces.length ≤ 8))]

theorem solve_escalation_witness :
    ([wPiece].length ≠ 0 ∧ countPoweredCells wGrid 1 ≠ 0) ∧
    (([wPiece].length ≤ 8 →
      (∀ fin occF cnt exc,
        btStrict wGrid 1 [wPiece] [] [] 0 false = (some (fin, occF), cnt, exc) →
        (solve [wPiece] wGrid 1).solution = fin ∧ fin.length = [wPiece].length) ∧
      (∀ cnt exc,
        btStrict wGrid 1 [wPiece] [] [] 0 false = (none, cnt, exc) →
        (∀ fin occF cnt2 exc2,
          btSkip wGrid 1 [wPiece] [] [] 0 false = (some (fin, occF), cnt2, exc2) →
          (solve [wPiece] wGrid 1).solution = fin) ∧
        (∀ cnt2 exc2,
          btSkip wGrid 1 [wPiece] [] [] 0 false = (none, cnt2, exc2) →
          (solve [wPiece] wGrid 1).solution = (greedyLoop wGrid 1 [wPiece] []).1))) ∧
    (8 < [wPiece].length →
      (solve [wPiece] wGrid 1).solution = (greedyLoop wGrid 1 [wPiece] []).1)) :=
  ⟨⟨by decide, by decide⟩,
    solve_escalation [wPiece] wGrid 1 (by decide) (by decide)⟩

/-- C5: candidate enumeration returns exactly the feasible (rotation, origin)
pairs — membership is equivalent to `Feasible`, with no duplicates — sorted by
protected-cell count descending, ties broken by enumeration order: rotation
index ascending, then origin row ascending, then origin column ascending. -/
theorem getValidPlacements_spec (piece : Piece) (gridState : List (List Nat))
    (occ : List (Nat × Nat)) (gridSize : Nat) :
    (∀ cand, cand ∈ getValidPlacements piece gridState occ gridSize ↔
      Feasible piece gridState occ gridSize cand) ∧
    (getValidPlacements piece gridState occ gridSize).Nodup ∧
    (getValidPlacements piece gridState occ gridSize).Pairwise
      (fun a b => b.protectedCount ≤ a.protectedCount) ∧
    (getValidPlacements piece gridState occ gridSize).Pairwise
      (fun a b => a.protectedCount = b.protectedCount → enumLT a b) := by
  refine ⟨?_, ?_, ?_, ?_⟩
  · intro cand
    rw [getValidPlacements, mem_sortCands, mem_enumCands]
  · have hnd : (enumCands piece gridState occ gridSize).Nodup := by
      refine (enumCands_pairwise piece gridState occ gridSize).imp ?_
      intro a b hab heq
      subst heq
      rcases hab with h | ⟨-, h | ⟨-, h⟩⟩ <;> omega
    exact ((sortCands_perm _).nodup_iff).mpr hnd
  · exact sortCands_sorted _
  · exact sortCands_tie _ (enumCands_pairwise piece gridState occ gridSize)

theorem getValidPlacements_spec_witness :
    (∀ cand, cand ∈ getValidPlacements wPiece wGrid [] 1 ↔
      Feasible wPiece wGrid [] 1 cand) ∧
    (getValidPlacements wPiece wGrid [] 1).Nodup ∧
    (getValidPlacements wPiece wGrid [] 1).Pairwise
      (fun a b => b.protectedCount ≤ a.protectedCount) ∧
    (getValidPlacements wPiece wGrid [] 1).Pairwise
      (fun a b => a.protectedCount = b.protectedCount → enumLT a b) :=
  getValidPlacements_spec wPiece wGrid [] 1

/-- C6: `solve` is deterministic — equal piece lists, equal grid contents and
equal grid sizes give equal results; the embedding is a pure function of these
three inputs, and the source uses no randomness. -/
theorem solve_deterministic (pieces₁ pieces₂ : List Piece)
    (grid₁ grid₂ : List (List Nat)) (size₁ size₂ : Nat)
    (hp : pieces₁ = pieces₂) (hg : grid₁ = grid₂) (hs : size₁ = size₂) :
    solve pieces₁ grid₁ size₁ = solve pieces₂ grid₂ size₂ := by
  subst hp; subst hg; subst hs; rfl

theorem solve_deterministic_witness :
    solve [wPiece] wGrid 1 = solve [wPiece] wGrid 1 :=
  solve_deterministic [wPiece] [wPiece] wGrid wGrid 1 1 rfl rfl rfl

/-- C7: rotating any non-empty rectangular mask four times with `rotateShape`
returns the original mask exactly. -/
theorem rotateShape_four (shape : List (List Nat)) (hne : shape ≠ [])
    (hcols : (shape.headD []).length ≠ 0)
    (hrect : ∀ row ∈ shape, row.length = (shape.headD []).length) :
    rotateShape (rotateShape (rotateShape (rotateShape shape))) = shape := by
  have hR : shape.length ≠ 0 := by
    intro h; exact hne (List.length_eq_zero.mp h)
  set R := shape.length with hRdef
  set C := (shape.headD []).length with hCdef
  set s1 := rotateShape shape with hs1
  set s2 := rotateShape s1 with hs2
  set s3 := rotateShape s2 with hs3
  have len1 : s1.length = C := rotateShape_length shape
  have hd1 : (s1.headD []).length = R := rotateShape_headD_length shape hcols
  have len2 : s2.length = R := by rw [hs2, rotateShape_length, hd1]
  have hd2 : (s2.headD []).length = C := by
    rw [hs2, rotateShape_headD_length s1 (by rw [hd1]; exact hR), len1]
  have len3 : s3.length = C := by rw [hs3, rotateShape_length, hd2]
  have hd3 : (s3.headD []).length = R := by
    rw [hs3, rotateShape_headD_length s2 (by rw [hd2]; exact hcols), len2]
  have len4 : (rotateShape s3).length = R := by rw [rotateShape_length, hd3]
  apply List.ext_getElem (by rw [len4])
  intro i hi4 hiS
  have hiR : i < R := by rw [← len4]; exact hi4
  have rowlen4 : ((rotateShape s3).getD i []).length = C := by
    rw [rotateShape_row_length s3 i (by rw [hd3]; exact hiR), len3]
  have rowlenS : shape[i].length = C := hrect _ (List.getElem_mem hiS)
  have hle : (rotateShape s3)[i].length = shape[i].length := by
    rw [← List.getD_eq_getElem (rotateShape s3) [] hi4, rowlen4, rowlenS]
  apply List.ext_getElem hle
  intro j hj4 hjS
  have hjC : j < C := by
    have h := hj4; rw [hle, rowlenS] at h; exact h
  have lhs : ((rotateShape s3).getD i []).getD j 0 = (rotateShape s3)[i][j] := by
    rw [List.getD_eq_getElem _ _ hi4]
    exact List.getD_eq_getElem _ _ hj4
  have rhs : (shape.getD i []).getD j 0 = shape[i][j] := by
    rw [List.getD_eq_getElem _ _ hiS]
    exact List.getD_eq_getElem _ _ hjS
  rw [← lhs, ← rhs]
  have e1 : ((rotateShape s3).getD i []).getD j 0 =
      (s3.getD (C - 1 - j) []).getD i 0 := by
    rw [rotateShape_entry s3 i j (by rw [hd3]; exact hiR) (by rw [len3]; exact hjC),
      len3]
  have e2 : (s3.getD (C - 1 - j) []).getD i 0 =
      (s2.getD (R - 1 - i) []).getD (C - 1 - j) 0 := by
    rw [hs3, rotateShape_entry s2 (C - 1 - j) i (by rw [hd2]; omega)
      (by rw [len2]; exact hiR), len2]
  have e3 : (s2.getD (R - 1 - i) []).getD (C - 1 - j) 0 =
      (s1.getD j []).getD (R - 1 - i) 0 := by
    rw [hs2, rotateShape_entry s1 (R - 1 - i) (C - 1 - j) (by rw [hd1]; omega)
      (by rw [len1]; omega), len1]
    have h : C - 1 - (C - 1 - j) = j := by omega
    rw [h]
  have e4 : (s1.getD j []).getD (R - 1 - i) 0 = (shape.getD i []).getD j 0 := by
    rw [hs1, rotateShape_entry shape j (R - 1 - i) (by rw [← hCdef]; exact hjC)
      (by rw [← hRdef]; omega)]
    have h : shape.length - 1 - (R - 1 - i) = i := by rw [← hRdef]; omega
    rw [h]
  rw [e1, e2, e3, e4]

theorem rotateShape_four_witness :
    (wShape ≠ [] ∧ (wShape.headD []).length ≠ 0 ∧
      (∀ row ∈ wShape, row.length = (wShape.headD []).length)) ∧
    rotateShape (rotateShape (rotateShape (rotateShape wShape))) = wShape :=
  ⟨⟨by decide, by decide, by decide⟩,
    rotateShape_four wShape (by decide) (by decide) (by decide)⟩

/-- C8: for an R x C mask, `rotateShape` produces a C x R mask with
rotated[c][R-1-r] = mask[r][c] for every r < R and c < C. -/
theorem rotateShape_spec (shape : List (List Nat)) (r c : Nat)
    (hr : r < shape.length) (hc : c < (shape.headD []).length) :
    (rotateShape shape).length = (shape.headD []).length ∧
    (∀ row ∈ rotateShape shape, row.length = shape.length) ∧
    ((rotateShape shape).getD c []).getD (shape.length - 1 - r) 0 =
      (shape.getD r []).getD c 0 := by
  refine ⟨rotateShape_length shape, ?_, ?_⟩
  · intro row hrow
    unfold rotateShape at hrow
    rw [List.mem_map] at hrow
    obtain ⟨a, _, rfl⟩ := hrow
    simp
  · rw [rotateShape_entry shape c (shape.length - 1 - r) hc (by omega)]
    have h : shape.length - 1 - (shape.length - 1 - r) = r := by omega
    rw [h]

theorem rotateShape_spec_witness :
    (0 < wShape.length ∧ 1 < (wShape.headD []).length) ∧
    ((rotateShape wShape).length = (wShape.headD []).length ∧
    (∀ row ∈ rotateShape wShape, row.length = wShape.length) ∧
    ((rotateShape wShape).getD 1 []).getD (wShape.length - 1 - 0) 0 =
      (wShape.getD 0 []).getD 1 0) :=
  ⟨⟨by decide, by decide⟩, rotateShape_spec wShape 0 1 (by decide) (by decide)⟩

/-- C9: an empty instance list, or a grid with zero powered cells, makes `solve`
return the structured failure immediately — success false, empty solution, and
the message naming the condition — with no search and no exception (the result
is the early-return literal). -/
theorem solve_validation (pieces : List Piece) (gridState : List (List Nat))
    (gridSize : Nat) :
    (pieces = [] → solve pieces gridState gridSize =
      { success := false, solution := [], message := "No components selected",
        stats := none }) ∧
    (pieces ≠ [] → countPoweredCells gridState gridSize = 0 →
      solve pieces gridState gridSize =
        { success := false, solution := [],
          message := "No powered cells on the grid", stats := none }) := by
  constructor
  · intro h; subst h; rfl
  · intro h1 h2
    have h1' : ¬ (pieces.length = 0) := by simpa using h1
    unfold solve
    rw [if_neg h1']
    simp [h2]

theorem solve_validation_witness :
    (solve [] c9Grid 1 =
      { success := false, solution := [], message := "No components selected",
        stats := none }) ∧
    (solve [wPiece] c9Grid 1 =
      { success := false, solution := [],
        message := "No powered cells on the grid", stats := none }) :=
  ⟨(solve_validation [] c9Grid 1).1 rfl,
    (solve_validation [wPiece] c9Grid 1).2 (by decide) (by decide)⟩

/-- C10: past input validation, both solver revisions return success = true
exactly when the solution contains at least one placement; a valid call placing
nothing yields success = false, never a successful empty result. -/
theorem solve_success_iff (pieces : List Piece) (gridState : List (List Nat))
    (gridSize : Nat) (h1 : pieces.length ≠ 0)
    (h2 : countPoweredCells gridState gridSize ≠ 0) :
    ((solve pieces gridState gridSize).success = true ↔
      (solve pieces gridState gridSize).solution ≠ []) ∧
    ((solveMandatory pieces gridState gridSize).success = true ↔
      (solveMandatory pieces gridState gridSize).solution ≠ []) := by
  constructor
  · unfold solve
    rw [if_neg h1]
    simp [h2, List.length_pos]
  · unfold solveMandatory
    rw [if_neg h1]
    simp [h2, List.length_pos]
    tauto

theorem solve_success_iff_witness :
    ([wPiece].length ≠ 0 ∧ countPoweredCells wGrid 1 ≠ 0) ∧
    (((solve [wPiece] wGrid 1).success = true ↔
      (solve [wPiece] wGrid 1).solution ≠ []) ∧
    ((solveMandatory [wPiece] wGrid 1).success = true ↔
      (solveMandatory [wPiece] wGrid 1).solution ≠ [])) :=
  ⟨⟨by decide, by decide⟩, solve_success_iff [wPiece] wGrid 1 (by decide) (by decide)⟩
